import Mathlib

/-!
Shallow embedding of the `dbag` metrics data layer (`dbag/models.py`) and
proofs about its registry, metric creation, sample collection and latest-sample
retrieval.

Modelling conventions:
* Persisted rows (`Metric`, `DatumSample`) are Lean structures; the database is
  a `DbState` record holding the row lists in storage (insertion) order, plus
  the id counter and a natural-number UTC clock (`datetime.datetime.utcnow()`
  reads `now`; each sample creation advances it).
* The Django ORM is out of scope per the spec, so `objects.create` appends a
  row and `objects.filter` is `List.filter`; the `DatumSample.Meta` ordering
  `['-utc_timestamp']` is modelled by sorting the filtered rows by timestamp
  descending (`orderDesc`) before indexing.
* The manager's `_registry` Python dict is an association list with unique
  keys: `dictGet` is `dict.get` (absent gives `none`, never an error),
  `dictSet` is `d[k] = v` (overwrite in place, else append), `dictPop` is
  `d.pop(k)` (`KeyError` when absent).
* A metric-type class is represented by its one observable operation
  `gather_data_sample : Metric → Int`; Python exceptions are an explicit
  `DbagError` value, and operations that may leave partial state behind return
  the state reached at the point the exception propagates.
* `slugify` is the external, opaque, pure collaborator: it is passed as an
  explicit function argument to `create_metric`.
-/

namespace Dbag

/-- The exceptions the embedded code can raise: the explicit
`Exception("MetricType doesn't exist with label %s")` of `create_metric`, the
`TypeError` from calling the `None` returned by `get_metric_type` in
`collect_metric`, the `IndexError` from `[0]` on an empty queryset in
`get_latest_sample`, and the `KeyError` from `dict.pop` in
`unregister_metric_type`. -/
inductive DbagError where
  | metricTypeNotFound (label : String)
  | noneNotCallable
  | indexError
  | keyError (label : String)
deriving Repr, DecidableEq

/-- One row of the `Metric` table (`dbag/models.py`, class `Metric`).
`metric_properties` is the JSON blob, modelled as a key/value list. -/
structure Metric where
  id : Nat
  metric_type_label : String
  metric_properties : List (String × String)
  slug : String
  label : String
  description : Option String
  unit_label : String
  unit_label_plural : String
  do_collect : Bool
deriving Repr, DecidableEq

/-- One row of the `DatumSample` table (`dbag/models.py`, class `DatumSample`):
a foreign key to its metric, the UTC timestamp and the sampled value
(`BigIntegerField`, hence `Int`). -/
structure DatumSample where
  metric : Nat
  utc_timestamp : Nat
  value : Int
deriving Repr, DecidableEq

/-- The storage state: the two tables in insertion order, the id assigned to
the next created `Metric` row, and the current UTC clock reading. -/
structure DbState where
  metrics : List Metric
  samples : List DatumSample
  nextMetricId : Nat
  now : Nat
deriving Repr, DecidableEq

/-- A registered metric-type class, represented by its
`gather_data_sample(metric)` operation returning the integer sample value. -/
def Strategy := Metric → Int

/-- `dict.get(k)`: value of the first entry with key `k`, `none` when absent. -/
def dictGet : List (String × Strategy) → String → Option Strategy
  | [], _ => none
  | p :: d, k => if p.1 = k then some p.2 else dictGet d k

/-- `d[k] = v`: overwrite the value at an existing key in place, otherwise
append the new entry (Python dict insertion-order semantics). -/
def dictSet : List (String × Strategy) → String → Strategy → List (String × Strategy)
  | [], k, v => [(k, v)]
  | p :: d, k, v => if p.1 = k then (p.1, v) :: d else p :: dictSet d k v

/-- `d.pop(k)`: remove the entry with key `k`, `KeyError` when absent. -/
def dictPop : List (String × Strategy) → String → Except DbagError (List (String × Strategy))
  | [], k => .error (.keyError k)
  | p :: d, k => if p.1 = k then .ok d else (dictPop d k).map (p :: ·)

/-- `MetricManager`: its only state is the in-memory `_registry` dict. -/
structure MetricManager where
  registry : List (String × Strategy)

/-- `MetricManager.register_metric_type(label, metric_type)`:
`self._registry[label] = metric_type`. -/
def MetricManager.register_metric_type (mgr : MetricManager) (label : String)
    (metric_type : Strategy) : MetricManager :=
  ⟨dictSet mgr.registry label metric_type⟩

/-- `MetricManager.unregister_metric_type(label)`: `self._registry.pop(label)`,
raising `KeyError` when the label is absent. -/
def MetricManager.unregister_metric_type (mgr : MetricManager) (label : String) :
    Except DbagError MetricManager :=
  (dictPop mgr.registry label).map (fun d => ⟨d⟩)

/-- `MetricManager.get_metric_type(label)`: `self._registry.get(label)`. -/
def MetricManager.get_metric_type (mgr : MetricManager) (label : String) :
    Option Strategy :=
  dictGet mgr.registry label

/-- `get_metric_type` in state-passing form, making explicit that the lookup
returns the registry unchanged (dict `.get` does not mutate). -/
def MetricManager.get_metric_type_st (mgr : MetricManager) (label : String) :
    Option Strategy × MetricManager :=
  (dictGet mgr.registry label, mgr)

/-- `MetricManager.get_metric_types()`: returns the registry mapping. -/
def MetricManager.get_metric_types (mgr : MetricManager) :
    List (String × Strategy) :=
  mgr.registry

/-- `Metric.collect_metric(manager)`: resolve the metric type by label — when
the lookup returns `None`, instantiating it (`metric_type_cls()`) raises
`TypeError` before touching storage — then gather one value and create one
`DatumSample` stamped with the current UTC time. Returns the storage state at
return/raise together with the propagated exception, if any. -/
def Metric.collect_metric (m : Metric) (manager : MetricManager) (st : DbState) :
    DbState × Option DbagError :=
  match manager.get_metric_type m.metric_type_label with
  | none => (st, some DbagError.noneNotCallable)
  | some metric_type =>
    let data_value := metric_type m
    (⟨st.metrics, st.samples ++ [⟨m.id, st.now, data_value⟩],
      st.nextMetricId, st.now + 1⟩, none)

/-- The loop body of `MetricManager.collect_metrics`: collect each metric in
turn; an exception raised by one collection propagates, abandoning the rest of
the iteration but keeping the rows already created. -/
def collectLoop (manager : MetricManager) : List Metric → DbState → DbState × Option DbagError
  | [], st => (st, none)
  | m :: ms, st =>
    match m.collect_metric manager st with
    | (st1, none) => collectLoop manager ms st1
    | (st1, some e) => (st1, some e)

/-- `MetricManager.collect_metrics()`:
`for metric in Metric.objects.filter(do_collect=True): metric.collect_metric(self)`. -/
def MetricManager.collect_metrics (manager : MetricManager) (st : DbState) :
    DbState × Option DbagError :=
  collectLoop manager (st.metrics.filter (fun m => m.do_collect)) st

/-- `MetricManager.create_metric(metric_type_label, label, slug=None,
description=None, **kwargs)`: raise unless the label resolves; derive the slug
from the label via `slugify` when the argument is falsy (`None` or `""`);
`metric_properties = kwargs` (the empty dict when no kwargs are given); create
the `Metric` row (`do_collect` takes its field default `True`, the unit labels
the `CharField` default `""`). Returns the created metric or the exception,
with the storage state at return/raise. -/
def MetricManager.create_metric (mgr : MetricManager) (slugify : String → String)
    (metric_type_label : String) (label : String) (slug : Option String)
    (description : Option String) (kwargs : List (String × String))
    (st : DbState) : Except DbagError Metric × DbState :=
  if (mgr.get_metric_type metric_type_label).isNone then
    (.error (.metricTypeNotFound metric_type_label), st)
  else
    let slugVal : String :=
      match slug with
      | none => slugify label
      | some s => if s = "" then slugify label else s
    let metric_properties := if kwargs.isEmpty then [] else kwargs
    let metric : Metric :=
      ⟨st.nextMetricId, metric_type_label, metric_properties, slugVal, label,
        description, "", "", true⟩
    (.ok metric, ⟨st.metrics ++ [metric], st.samples, st.nextMetricId + 1, st.now⟩)

/-- Insert a sample into a list kept in descending `utc_timestamp` order
(models the `ORDER BY utc_timestamp DESC` of `DatumSample.Meta.ordering`). -/
def insertDesc (s : DatumSample) : List DatumSample → List DatumSample
  | [] => [s]
  | t :: ts =>
    if s.utc_timestamp ≤ t.utc_timestamp then t :: insertDesc s ts
    else s :: t :: ts

/-- Sort samples by `utc_timestamp` descending: the default ordering every
`DatumSample` queryset carries through `Meta.ordering = ['-utc_timestamp']`. -/
def orderDesc : List DatumSample → List DatumSample
  | [] => []
  | s :: ss => insertDesc s (orderDesc ss)

/-- `Metric.get_latest_sample()`:
`DatumSample.objects.filter(metric=self)[0]` — filter this metric's samples,
order them by timestamp descending, take index 0; `IndexError` when the metric
has no samples. -/
def Metric.get_latest_sample (m : Metric) (st : DbState) :
    Except DbagError DatumSample :=
  match orderDesc (st.samples.filter (fun s => s.metric == m.id)) with
  | [] => .error DbagError.indexError
  | s :: _ => .ok s

/-- The number of `DatumSample` rows whose foreign key is `metricId`. -/
def sampleCount (st : DbState) (metricId : Nat) : Nat :=
  (st.samples.filter (fun s => s.metric == metricId)).length

/-- The `DatumSample` rows whose foreign key is `metricId`, in storage order. -/
def samplesOf (st : DbState) (metricId : Nat) : List DatumSample :=
  st.samples.filter (fun s => s.metric == metricId)

/-! Concrete fixtures used as witnesses and counterexample inputs. -/

/-- A metric-type strategy whose `gather_data_sample` always returns 5. -/
def exStrategyFive : Strategy := fun _ => 5

/-- A manager whose registry holds one strategy, under the label `"ok"`. -/
def exMgr : MetricManager := ⟨[("ok", exStrategyFive)]⟩

/-- A collectible metric whose type label is not registered in `exMgr`. -/
def exMetricMissing : Metric :=
  ⟨1, "missing", [], "missing-m", "Missing", none, "", "", true⟩

/-- A collectible metric whose type label resolves in `exMgr`. -/
def exMetricOk : Metric := ⟨2, "ok", [], "ok-m", "Ok", none, "", "", true⟩

/-- A metric with `do_collect = false` whose type label resolves in `exMgr`. -/
def exMetricOff : Metric := ⟨3, "ok", [], "off-m", "Off", none, "", "", false⟩

/-- A state whose first collectible metric is unresolvable: iterating it makes
`collect_metrics` abort before reaching `exMetricOk`. -/
def exSt : DbState := ⟨[exMetricMissing, exMetricOk, exMetricOff], [], 4, 100⟩

/-- A state where every collectible metric resolves in `exMgr`. -/
def exStGood : DbState := ⟨[exMetricOk, exMetricOff], [], 4, 100⟩

/-- An early sample for `exMetricOk`. -/
def exSampleEarly : DatumSample := ⟨2, 10, 7⟩

/-- A later sample for `exMetricOk`. -/
def exSampleLate : DatumSample := ⟨2, 20, 9⟩

/-- A sample belonging to a different metric (`exMetricOff`). -/
def exSampleOther : DatumSample := ⟨3, 30, 1⟩

/-- A state with stored samples, for the latest-sample theorems. -/
def exStSamples : DbState :=
  ⟨[exMetricOk], [exSampleEarly, exSampleLate, exSampleOther], 4, 100⟩

/-! Helper lemmas shared by the claim theorems. -/

/-- `dict.get` on a dict that has no entry for the key returns `None`. -/
theorem dictGet_eq_none (d : List (String × Strategy)) (k : String)
    (h : ∀ p ∈ d, p.1 ≠ k) : dictGet d k = none := by
  induction d with
  | nil => rfl
  | cons p d ih =>
    unfold dictGet
    rw [if_neg (h p (List.mem_cons_self p d))]
    exact ih fun q hq => h q (List.mem_cons_of_mem p hq)

/-- `collect_metric` when the label resolves: success, and storage gains
exactly the one sample stamped with the strategy value and the current time. -/
theorem collect_metric_some (m : Metric) (mgr : MetricManager) (st : DbState)
    (f : Strategy) (h : mgr.get_metric_type m.metric_type_label = some f) :
    m.collect_metric mgr st =
      (⟨st.metrics, st.samples ++ [⟨m.id, st.now, f m⟩],
        st.nextMetricId, st.now + 1⟩, none) := by
  unfold Metric.collect_metric
  rw [h]

/-- `collect_metric` when the label does not resolve: the `TypeError` from
calling `None` propagates and storage is untouched. -/
theorem collect_metric_noneCase (m : Metric) (mgr : MetricManager) (st : DbState)
    (h : mgr.get_metric_type m.metric_type_label = none) :
    m.collect_metric mgr st = (st, some DbagError.noneNotCallable) := by
  unfold Metric.collect_metric
  rw [h]

/-- One successful step of the collection loop. -/
theorem collectLoop_cons_ok (mgr : MetricManager) (m : Metric) (ms : List Metric)
    (st st1 : DbState) (h : m.collect_metric mgr st = (st1, none)) :
    collectLoop mgr (m :: ms) st = collectLoop mgr ms st1 := by
  rw [collectLoop, h]

/-- One failing step of the collection loop: the exception propagates and the
remaining metrics are not visited. -/
theorem collectLoop_cons_err (mgr : MetricManager) (m : Metric) (ms : List Metric)
    (st st1 : DbState) (e : DbagError)
    (h : m.collect_metric mgr st = (st1, some e)) :
    collectLoop mgr (m :: ms) st = (st1, some e) := by
  rw [collectLoop, h]

/-- Overwriting registration: `dict.get` after `d[k] = v` returns `v`. -/
theorem dictGet_dictSet_self (d : List (String × Strategy)) (k : String)
    (v : Strategy) : dictGet (dictSet d k v) k = some v := by
  induction d with
  | nil =>
    show dictGet [(k, v)] k = some v
    unfold dictGet
    rw [if_pos rfl]
  | cons p d ih =>
    by_cases hp : p.1 = k
    · show dictGet (if p.1 = k then (p.1, v) :: d else p :: dictSet d k v) k = some v
      rw [if_pos hp]
      unfold dictGet
      rw [if_pos hp]
    · show dictGet (if p.1 = k then (p.1, v) :: d else p :: dictSet d k v) k = some v
      rw [if_neg hp]
      unfold dictGet
      rw [if_neg hp]
      exact ih

/-- After a successful `d.pop(k)` on a dict with unique keys, `dict.get`
returns `None` for `k`. -/
theorem dictGet_dictPop (d : List (String × Strategy)) (k : String)
    (hnd : (d.map Prod.fst).Nodup) (d1 : List (String × Strategy))
    (h : dictPop d k = .ok d1) : dictGet d1 k = none := by
  induction d generalizing d1 with
  | nil => exact absurd h (by simp [dictPop])
  | cons p d ih =>
    rw [List.map_cons, List.nodup_cons] at hnd
    by_cases hp : p.1 = k
    · have h1 : dictPop (p :: d) k = .ok d := by
        unfold dictPop
        rw [if_pos hp]
      rw [h1] at h
      cases h
      refine dictGet_eq_none d k fun q hq hqk => absurd ?_ hnd.1
      rw [hp, ← hqk]
      exact List.mem_map_of_mem Prod.fst hq
    · have h1 : dictPop (p :: d) k = (dictPop d k).map (p :: ·) := by
        rw [dictPop, if_neg hp]
      rw [h1] at h
      cases hd : dictPop d k with
      | error e => rw [hd] at h; exact absurd h (by simp [Except.map])
      | ok d2 =>
        rw [hd] at h
        simp only [Except.map] at h
        cases h
        unfold dictGet
        rw [if_neg hp]
        exact ih hnd.2 d2 hd

/-- Membership in `insertDesc`. -/
theorem mem_insertDesc (s x : DatumSample) (l : List DatumSample) :
    x ∈ insertDesc s l ↔ x = s ∨ x ∈ l := by
  induction l with
  | nil => simp [insertDesc]
  | cons t ts ih =>
    unfold insertDesc
    by_cases hst : s.utc_timestamp ≤ t.utc_timestamp
    · rw [if_pos hst]
      simp only [List.mem_cons, ih]
      tauto
    · rw [if_neg hst]
      simp only [List.mem_cons]

/-- `insertDesc` preserves the head-dominance property: if the head of the
list has the maximal timestamp, so does the head after inserting. -/
theorem insertDesc_head_max (s : DatumSample) (l : List DatumSample)
    (hl : ∀ h, l.head? = some h → ∀ x ∈ l, x.utc_timestamp ≤ h.utc_timestamp) :
    ∀ h, (insertDesc s l).head? = some h →
      ∀ x ∈ insertDesc s l, x.utc_timestamp ≤ h.utc_timestamp := by
  cases l with
  | nil =>
    intro h hh x hx
    simp only [insertDesc, List.head?_cons, Option.some.injEq] at hh
    simp only [insertDesc, List.mem_singleton] at hx
    rw [hx, hh]
  | cons t ts =>
    by_cases hst : s.utc_timestamp ≤ t.utc_timestamp
    · unfold insertDesc
      rw [if_pos hst]
      intro h hh x hx
      simp only [List.head?_cons, Option.some.injEq] at hh
      subst hh
      rcases List.mem_cons.mp hx with rfl | hx2
      · exact Nat.le_refl _
      · rcases (mem_insertDesc s x ts).mp hx2 with rfl | hx3
        · exact hst
        · exact hl t rfl x (List.mem_cons_of_mem t hx3)
    · unfold insertDesc
      rw [if_neg hst]
      intro h hh x hx
      simp only [List.head?_cons, Option.some.injEq] at hh
      subst hh
      rcases List.mem_cons.mp hx with rfl | hx2
      · exact Nat.le_refl _
      · rcases List.mem_cons.mp hx2 with rfl | hx3
        · exact Nat.le_of_lt (Nat.lt_of_not_le hst)
        · exact Nat.le_trans (hl t rfl x (List.mem_cons_of_mem t hx3))
            (Nat.le_of_lt (Nat.lt_of_not_le hst))

/-- The head of the descending sort has the maximal timestamp. -/
theorem orderDesc_head_max (l : List DatumSample) :
    ∀ h, (orderDesc l).head? = some h →
      ∀ x ∈ orderDesc l, x.utc_timestamp ≤ h.utc_timestamp := by
  induction l with
  | nil => intro h hh; simp [orderDesc] at hh
  | cons s ss ih => exact insertDesc_head_max s (orderDesc ss) ih

/-- Sorting does not change membership. -/
theorem mem_orderDesc (x : DatumSample) (l : List DatumSample) :
    x ∈ orderDesc l ↔ x ∈ l := by
  induction l with
  | nil => simp [orderDesc]
  | cons s ss ih =>
    unfold orderDesc
    rw [mem_insertDesc]
    simp [ih]

/-- The collection loop only appends sample rows, and every appended row
belongs (by foreign key) to one of the iterated metrics — also when the loop
aborts on an exception part-way through. -/
theorem collectLoop_appends (mgr : MetricManager) (ms : List Metric)
    (st : DbState) :
    ∃ news, (collectLoop mgr ms st).1.samples = st.samples ++ news ∧
      ∀ s ∈ news, s.metric ∈ ms.map Metric.id := by
  induction ms generalizing st with
  | nil => exact ⟨[], by simp [collectLoop], by simp⟩
  | cons m ms ih =>
    cases hopt : mgr.get_metric_type m.metric_type_label with
    | none =>
      rw [collectLoop_cons_err mgr m ms st st _
        (collect_metric_noneCase m mgr st hopt)]
      exact ⟨[], by simp, by simp⟩
    | some f =>
      rw [collectLoop_cons_ok mgr m ms st _
        (collect_metric_some m mgr st f hopt)]
      obtain ⟨news, hsamp, hmem⟩ := ih ⟨st.metrics,
        st.samples ++ [⟨m.id, st.now, f m⟩], st.nextMetricId, st.now + 1⟩
      refine ⟨⟨m.id, st.now, f m⟩ :: news, ?_, ?_⟩
      · rw [hsamp]
        simp
      · intro s hs
        rw [List.map_cons]
        rcases List.mem_cons.mp hs with rfl | hs2
        · exact List.mem_cons_self _ _
        · exact List.mem_cons_of_mem _ (hmem s hs2)

/-- When every iterated metric resolves, the loop succeeds and appends exactly
one sample row per iterated metric, in iteration order. -/
theorem collectLoop_resolvable (mgr : MetricManager) (ms : List Metric)
    (st : DbState)
    (h : ∀ m ∈ ms, (mgr.get_metric_type m.metric_type_label).isSome = true) :
    (collectLoop mgr ms st).2 = none ∧
    ∃ news, (collectLoop mgr ms st).1.samples = st.samples ++ news ∧
      news.map DatumSample.metric = ms.map Metric.id := by
  induction ms generalizing st with
  | nil => exact ⟨rfl, [], by simp [collectLoop], rfl⟩
  | cons m ms ih =>
    obtain ⟨f, hf⟩ :=
      Option.isSome_iff_exists.mp (h m (List.mem_cons_self m ms))
    rw [collectLoop_cons_ok mgr m ms st _ (collect_metric_some m mgr st f hf)]
    obtain ⟨h2, news, hsamp, hmap⟩ :=
      ih ⟨st.metrics, st.samples ++ [⟨m.id, st.now, f m⟩], st.nextMetricId,
        st.now + 1⟩ (fun x hx => h x (List.mem_cons_of_mem m hx))
    refine ⟨h2, ⟨m.id, st.now, f m⟩ :: news, ?_, ?_⟩
    · rw [hsamp]
      simp
    · rw [List.map_cons, List.map_cons, hmap]

/-- Counting through a projection to ids. -/
theorem countP_comp_eq {α : Type} (f : α → Nat) (l : List α) (i : Nat) :
    l.countP (fun a => f a == i) = (l.map f).countP (fun j => j == i) := by
  induction l with
  | nil => rfl
  | cons a l ih =>
    rw [List.map_cons]
    by_cases hb : (f a == i) = true
    · rw [List.countP_cons_of_pos (fun x => f x == i) l hb,
        List.countP_cons_of_pos (fun j => j == i) (List.map f l) hb, ih]
    · rw [List.countP_cons_of_neg (fun x => f x == i) l hb,
        List.countP_cons_of_neg (fun j => j == i) (List.map f l) hb, ih]

/-- With unique metric ids, the collectible slice of the metric table contains
the id of `m` once when `m.do_collect` and zero times otherwise. -/
theorem countP_filter_do_collect (metrics : List Metric) (m : Metric)
    (hnd : (metrics.map Metric.id).Nodup) (hm : m ∈ metrics) :
    (metrics.filter (fun x => x.do_collect)).countP (fun x => x.id == m.id) =
      if m.do_collect then 1 else 0 := by
  induction metrics with
  | nil => cases hm
  | cons a l ih =>
    rw [List.map_cons, List.nodup_cons] at hnd
    rcases List.mem_cons.mp hm with rfl | hm2
    · have hz : (l.filter (fun x => x.do_collect)).countP
          (fun x => x.id == m.id) = 0 := by
        rw [List.countP_eq_zero]
        intro x hx hbeq
        have hxl : x ∈ l := List.mem_of_mem_filter hx
        have hxid : x.id = m.id := by simpa using hbeq
        refine absurd ?_ hnd.1
        rw [← hxid]
        exact List.mem_map_of_mem Metric.id hxl
      by_cases hdc : m.do_collect = true
      · rw [List.filter_cons_of_pos (by simpa using hdc),
          List.countP_cons_of_pos (fun x : Metric => x.id == m.id) _ (by simp), hz,
          if_pos hdc]
      · rw [List.filter_cons_of_neg (by simpa using hdc), hz, if_neg hdc]
    · have hne : ¬((fun x => x.id == m.id) a = true) := by
        simp only [beq_iff_eq]
        intro he
        refine absurd ?_ hnd.1
        rw [he]
        exact List.mem_map_of_mem Metric.id hm2
      have hrec := ih hnd.2 hm2
      by_cases hdc : a.do_collect = true
      · rw [List.filter_cons_of_pos (by simpa using hdc),
          List.countP_cons_of_neg (fun x : Metric => x.id == m.id) _ hne]
        exact hrec
      · rw [List.filter_cons_of_neg (by simpa using hdc)]
        exact hrec

/-! Claim theorems. -/

/-- C2: for a metric whose `metric_type_label` is registered, a successful
`collect_metric(registry)` call creates and persists exactly one new
`DatumSample`, whose `value` is the integer returned by the strategy's
`gather_data_sample` and whose `utc_timestamp` is the current UTC time; the
sample table is otherwise unchanged (the result state is exactly the old one
with that single row appended). -/
theorem collect_metric_creates_one_sample (m : Metric) (mgr : MetricManager)
    (st : DbState) (f : Strategy)
    (h : mgr.get_metric_type m.metric_type_label = some f) :
    m.collect_metric mgr st =
      (⟨st.metrics, st.samples ++ [⟨m.id, st.now, f m⟩],
        st.nextMetricId, st.now + 1⟩, none) :=
  collect_metric_some m mgr st f h

/-- Witness for C2 at a concrete metric, manager and state. -/
theorem collect_metric_creates_one_sample_witness :
    exMetricOk.collect_metric exMgr exStGood =
      (⟨exStGood.metrics, exStGood.samples ++ [⟨exMetricOk.id, exStGood.now, 5⟩],
        exStGood.nextMetricId, exStGood.now + 1⟩, none) :=
  collect_metric_creates_one_sample exMetricOk exMgr exStGood exStrategyFive rfl

/-- C4: `create_metric` with an unregistered `metric_type_label` raises the
"MetricType doesn't exist" exception and leaves the storage state unchanged
(no Metric record is persisted). -/
theorem create_metric_unregistered_fails (mgr : MetricManager)
    (slugify : String → String) (metric_type_label label : String)
    (slug description : Option String) (kwargs : List (String × String))
    (st : DbState) (h : mgr.get_metric_type metric_type_label = none) :
    mgr.create_metric slugify metric_type_label label slug description kwargs st =
      (.error (.metricTypeNotFound metric_type_label), st) := by
  unfold MetricManager.create_metric
  rw [h]
  rfl

/-- Witness for C4 at a concrete unregistered label. -/
theorem create_metric_unregistered_fails_witness :
    exMgr.create_metric (fun s => s) "missing" "Lbl" none none [] exStGood =
      (.error (.metricTypeNotFound "missing"), exStGood) :=
  create_metric_unregistered_fails exMgr (fun s => s) "missing" "Lbl" none none
    [] exStGood rfl

/-- C6: collecting a metric whose `metric_type_label` is not (or no longer)
registered fails with the error caused by the missing strategy (the
`TypeError` from calling the `None` lookup result) for that metric only: the
failing call leaves the whole storage state unchanged, so the stored samples
of every metric id are exactly what they were before the failure. -/
theorem collect_metric_unregistered_isolated (m : Metric) (mgr : MetricManager)
    (st : DbState) (h : mgr.get_metric_type m.metric_type_label = none) :
    m.collect_metric mgr st = (st, some DbagError.noneNotCallable) ∧
    ∀ i : Nat, samplesOf (m.collect_metric mgr st).1 i = samplesOf st i := by
  have he := collect_metric_noneCase m mgr st h
  exact ⟨he, fun i => by rw [he]⟩

/-- Witness for C6 at a concrete unresolvable metric. -/
theorem collect_metric_unregistered_isolated_witness :
    exMetricMissing.collect_metric exMgr exSt =
        (exSt, some DbagError.noneNotCallable) ∧
    ∀ i : Nat,
      samplesOf (exMetricMissing.collect_metric exMgr exSt).1 i =
        samplesOf exSt i :=
  collect_metric_unregistered_isolated exMetricMissing exMgr exSt rfl

/-- C8: resolving a label that has no entry in the registry returns absence
(`None`), not an error, and the lookup never mutates the registry: the
registry after `get_metric_type` equals the registry before. -/
theorem get_metric_type_missing_and_pure (mgr : MetricManager) (label : String)
    (h : ∀ p ∈ mgr.registry, p.1 ≠ label) :
    mgr.get_metric_type label = none ∧
    (mgr.get_metric_type_st label).2 = mgr :=
  ⟨dictGet_eq_none mgr.registry label h, rfl⟩

/-- Witness for C8 at a concrete registry and missing label. -/
theorem get_metric_type_missing_and_pure_witness :
    exMgr.get_metric_type "missing" = none ∧
    (exMgr.get_metric_type_st "missing").2 = exMgr :=
  get_metric_type_missing_and_pure exMgr "missing" (by decide)

/-- C10: a metric with zero `DatumSample` rows makes `get_latest_sample()`
raise `IndexError` (indexing `[0]` into an empty queryset) rather than return
an absent value. -/
theorem get_latest_sample_empty_raises (m : Metric) (st : DbState)
    (h : ∀ s ∈ st.samples, s.metric ≠ m.id) :
    m.get_latest_sample st = .error DbagError.indexError := by
  unfold Metric.get_latest_sample
  have hf : st.samples.filter (fun s => s.metric == m.id) = [] := by
    rw [List.filter_eq_nil_iff]
    intro s hs
    simp [h s hs]
  rw [hf]
  rfl

/-- Witness for C10 at a concrete metric with no samples. -/
theorem get_latest_sample_empty_raises_witness :
    exMetricOk.get_latest_sample exStGood = .error DbagError.indexError :=
  get_latest_sample_empty_raises exMetricOk exStGood (by simp [exStGood])

/-- C7: registering a strategy under a label makes `get_metric_type` return
exactly that (most recently registered) strategy for the label, and after a
successful `unregister_metric_type` the lookup returns `None`. The Nodup
hypothesis is the unique-keys invariant every Python dict satisfies. -/
theorem register_resolve_unregister (mgr : MetricManager) (label : String)
    (s : Strategy) (mgr1 : MetricManager)
    (hnd : (mgr.registry.map Prod.fst).Nodup)
    (hpop : mgr.unregister_metric_type label = .ok mgr1) :
    (mgr.register_metric_type label s).get_metric_type label = some s ∧
    mgr1.get_metric_type label = none := by
  constructor
  · exact dictGet_dictSet_self mgr.registry label s
  · unfold MetricManager.unregister_metric_type at hpop
    cases hd : dictPop mgr.registry label with
    | error e => rw [hd] at hpop; exact absurd hpop (by simp [Except.map])
    | ok d1 =>
      rw [hd] at hpop
      simp only [Except.map] at hpop
      cases hpop
      exact dictGet_dictPop mgr.registry label hnd d1 hd

/-- Witness for C7 at a concrete one-entry registry. -/
theorem register_resolve_unregister_witness :
    ((⟨[("a", exStrategyFive)]⟩ : MetricManager).register_metric_type "a"
        exStrategyFive).get_metric_type "a" = some exStrategyFive ∧
    (⟨[]⟩ : MetricManager).get_metric_type "a" = none :=
  register_resolve_unregister ⟨[("a", exStrategyFive)]⟩ "a" exStrategyFive
    ⟨[]⟩ (by simp) rfl

/-- C5: for a registered type label, `create_metric` with `slug` omitted
persists exactly one new Metric whose `slug` is `slugify(label)` and whose
`metric_properties` are the supplied extra keyword configuration (the empty
mapping when none is given, since then `kwargs` is itself the empty
mapping). -/
theorem create_metric_slug_and_properties (mgr : MetricManager)
    (slugify : String → String) (metric_type_label label : String)
    (description : Option String) (kwargs : List (String × String))
    (st : DbState) (f : Strategy)
    (h : mgr.get_metric_type metric_type_label = some f) :
    ∃ met : Metric,
      mgr.create_metric slugify metric_type_label label none description kwargs
          st =
        (.ok met, ⟨st.metrics ++ [met], st.samples, st.nextMetricId + 1,
          st.now⟩) ∧
      met.slug = slugify label ∧ met.metric_properties = kwargs := by
  unfold MetricManager.create_metric
  rw [h]
  refine ⟨⟨st.nextMetricId, metric_type_label,
    if kwargs.isEmpty then [] else kwargs, slugify label, label, description,
    "", "", true⟩, ?_, rfl, ?_⟩
  · rfl
  · cases kwargs with
    | nil => rfl
    | cons p l => rfl

/-- Witness for C5 at a concrete label and keyword configuration. -/
theorem create_metric_slug_and_properties_witness :
    ∃ met : Metric,
      exMgr.create_metric (fun s => s ++ "-slug") "ok" "Users" none none
          [("q", "all")] exStGood =
        (.ok met, ⟨exStGood.metrics ++ [met], exStGood.samples,
          exStGood.nextMetricId + 1, exStGood.now⟩) ∧
      met.slug = "Users-slug" ∧ met.metric_properties = [("q", "all")] :=
  create_metric_slug_and_properties exMgr (fun s => s ++ "-slug") "ok" "Users"
    none [("q", "all")] exStGood exStrategyFive rfl

/-- C9: a successful `create_metric` yields a Metric with `do_collect = true`
(the field default, since `create_metric` never passes it), so the created
metric is in `st1.metrics.filter do_collect`, the exact list the next
`collect_metrics()` run iterates. -/
theorem create_metric_enables_collection (mgr : MetricManager)
    (slugify : String → String) (metric_type_label label : String)
    (slug description : Option String) (kwargs : List (String × String))
    (st : DbState) (f : Strategy)
    (h : mgr.get_metric_type metric_type_label = some f) :
    ∃ met st1,
      mgr.create_metric slugify metric_type_label label slug description kwargs
          st =
        (.ok met, st1) ∧
      met.do_collect = true ∧
      met ∈ st1.metrics.filter (fun x => x.do_collect) := by
  unfold MetricManager.create_metric
  rw [h]
  refine ⟨_, _, rfl, rfl, ?_⟩
  exact List.mem_filter.mpr
    ⟨List.mem_append_right _ (List.mem_singleton_self _), rfl⟩

/-- C3: for a metric with at least one sample, `get_latest_sample()` returns
a stored `DatumSample` belonging to that metric whose `utc_timestamp` is
maximal among all of that metric's samples (the head of the queryset ordered
by `-utc_timestamp`). -/
theorem get_latest_sample_is_max (m : Metric) (st : DbState)
    (h : ∃ s ∈ st.samples, s.metric = m.id) :
    ∃ t, m.get_latest_sample st = .ok t ∧ t ∈ st.samples ∧ t.metric = m.id ∧
      ∀ s ∈ st.samples, s.metric = m.id →
        s.utc_timestamp ≤ t.utc_timestamp := by
  obtain ⟨s0, hs0, hm0⟩ := h
  unfold Metric.get_latest_sample
  have hs0f : s0 ∈ st.samples.filter (fun s => s.metric == m.id) :=
    List.mem_filter.mpr ⟨hs0, by simp [hm0]⟩
  cases hod : orderDesc (st.samples.filter (fun s => s.metric == m.id)) with
  | nil =>
    have hmem : s0 ∈ orderDesc (st.samples.filter (fun s => s.metric == m.id)) :=
      (mem_orderDesc s0 _).mpr hs0f
    rw [hod] at hmem
    exact absurd hmem (List.not_mem_nil s0)
  | cons t rest =>
    have htmem : t ∈ st.samples.filter (fun s => s.metric == m.id) :=
      (mem_orderDesc t _).mp (by rw [hod]; exact List.mem_cons_self t rest)
    refine ⟨t, rfl, (List.mem_filter.mp htmem).1, ?_, ?_⟩
    · have := (List.mem_filter.mp htmem).2
      simpa using this
    · intro s hs hsm
      have hsf : s ∈ orderDesc (st.samples.filter (fun x => x.metric == m.id)) :=
        (mem_orderDesc s _).mpr (List.mem_filter.mpr ⟨hs, by simp [hsm]⟩)
      exact orderDesc_head_max _ t (by rw [hod]; rfl) s hsf

/-- Witness for C3 at a concrete state with three samples, two of them
belonging to the metric. -/
theorem get_latest_sample_is_max_witness :
    ∃ t, exMetricOk.get_latest_sample exStSamples = .ok t ∧
      t ∈ exStSamples.samples ∧ t.metric = exMetricOk.id ∧
      ∀ s ∈ exStSamples.samples, s.metric = exMetricOk.id →
        s.utc_timestamp ≤ t.utc_timestamp :=
  get_latest_sample_is_max exMetricOk exStSamples
    ⟨exSampleEarly, by decide, rfl⟩

/-- C1 counterexample: in `exSt` the first collectible metric
(`exMetricMissing`) does not resolve, so `collect_metrics()` raises there and
abandons the iteration; `exMetricOk` — collectible, with a resolvable
strategy — therefore gains no sample: it does not have exactly one more
`DatumSample` after the run, contradicting the claim as stated. -/
theorem collect_metrics_abort_counterexample :
    exMetricOk ∈ exSt.metrics ∧ exMetricOk.do_collect = true ∧
    (exMgr.get_metric_type exMetricOk.metric_type_label).isSome = true ∧
    sampleCount (exMgr.collect_metrics exSt).1 exMetricOk.id ≠
      sampleCount exSt exMetricOk.id + 1 := by
  refine ⟨?_, rfl, rfl, ?_⟩
  · decide
  · decide

/-- C1 (amended): provided every Metric with `do_collect = true` has a
resolvable strategy, after `collect_metrics()` every such metric has exactly
one more `DatumSample` than before the call; and Metrics with
`do_collect = false` always keep exactly the same number of samples, even when
the run aborts on an unresolvable metric. Metric ids are assumed pairwise
distinct — the primary-key invariant of the `Metric` table. -/
theorem collect_metrics_sample_counts (mgr : MetricManager) (st : DbState)
    (hnd : (st.metrics.map Metric.id).Nodup) :
    ((∀ m ∈ st.metrics, m.do_collect = true →
        (mgr.get_metric_type m.metric_type_label).isSome = true) →
      ∀ m ∈ st.metrics,
        sampleCount (mgr.collect_metrics st).1 m.id =
          sampleCount st m.id + (if m.do_collect then 1 else 0)) ∧
    (∀ m ∈ st.metrics, m.do_collect = false →
      sampleCount (mgr.collect_metrics st).1 m.id = sampleCount st m.id) := by
  constructor
  · intro hres m hm
    have hall : ∀ x ∈ st.metrics.filter (fun x => x.do_collect),
        (mgr.get_metric_type x.metric_type_label).isSome = true := by
      intro x hx
      have hx2 := List.mem_filter.mp hx
      exact hres x hx2.1 hx2.2
    obtain ⟨h2, news, hsamp, hmap⟩ :=
      collectLoop_resolvable mgr (st.metrics.filter (fun x => x.do_collect))
        st hall
    unfold MetricManager.collect_metrics sampleCount
    rw [hsamp, List.filter_append, List.length_append]
    have hnews : (news.filter (fun s => s.metric == m.id)).length =
        (if m.do_collect then 1 else 0) := by
      rw [← List.countP_eq_length_filter, countP_comp_eq DatumSample.metric,
        hmap, ← countP_comp_eq Metric.id]
      exact countP_filter_do_collect st.metrics m hnd hm
    rw [hnews]
  · intro m hm hoff
    obtain ⟨news, hsamp, hmem⟩ :=
      collectLoop_appends mgr (st.metrics.filter (fun x => x.do_collect)) st
    unfold MetricManager.collect_metrics sampleCount
    rw [hsamp, List.filter_append, List.length_append]
    have hzero : (news.filter (fun s => s.metric == m.id)).length = 0 := by
      rw [← List.countP_eq_length_filter, List.countP_eq_zero]
      intro s hs hbeq
      have heq : s.metric = m.id := by simpa using hbeq
      obtain ⟨m2, hm2, hid2⟩ := List.mem_map.mp (hmem s hs)
      have hm2f := List.mem_filter.mp hm2
      have hm2m : m2 = m :=
        List.inj_on_of_nodup_map hnd hm2f.1 hm (by rw [hid2, heq])
      have : m.do_collect = true := hm2m ▸ hm2f.2
      rw [hoff] at this
      exact Bool.false_ne_true this
    rw [hzero]
    exact Nat.add_zero _

/-- Witness for C1 (amended) at a concrete fully-resolvable state: the
collectible metric gains one sample, the paused one gains none. -/
theorem collect_metrics_sample_counts_witness :
    sampleCount (exMgr.collect_metrics exStGood).1 exMetricOk.id =
        sampleCount exStGood exMetricOk.id + 1 ∧
    sampleCount (exMgr.collect_metrics exStGood).1 exMetricOff.id =
        sampleCount exStGood exMetricOff.id := by
  have h := collect_metrics_sample_counts exMgr exStGood (by decide)
  constructor
  · have h1 := h.1 (by decide) exMetricOk (by decide)
    simpa using h1
  · exact h.2 exMetricOff (by decide) rfl

/-- Witness for C9 at a concrete creation. -/
theorem create_metric_enables_collection_witness :
    ∃ met st1,
      exMgr.create_metric (fun s => s) "ok" "Users" none none [] exStGood =
        (.ok met, st1) ∧
      met.do_collect = true ∧
      met ∈ st1.metrics.filter (fun x => x.do_collect) :=
  create_metric_enables_collection exMgr (fun s => s) "ok" "Users" none none
    [] exStGood exStrategyFive rfl

end Dbag
